import Mathlib

/-!
# Verification of `multipatch_analysis.experiment`

A shallow embedding of the connection/QC/labeling logic of
`multipatch_analysis/experiment.py` (class `Experiment`), together with
theorems settling the specification's claims about it.

Conventions:
* Python dictionaries (`self.cells`, `csum`, `cell.labels`, ...) are modelled
  as insertion-ordered association lists `List (key × value)`; dictionary
  assignment replaces the first matching key or appends at the end.
* Python tri-state values (`None` / `True` / `False`) become `Option Bool`.
* Python exceptions become `Except String`.
* Regular-expression prefix matches (`re.match`) are implemented as
  character-list parsers that consume a prefix and ignore the rest, exactly
  as `re.match` does (it anchors only at the start of the string).
-/

namespace Multipatch

/-- A cell, as used by `experiment.py`.

The `Cell` class itself lives in `cell.py`, which is not part of the sources
under verification; only the attributes read and written by `experiment.py`
are modelled.  `cre_type` — Modelled from the spec: `cre_type` is a derived
read view over `labels` computed in the missing `cell.py` ("may be `None` if
indeterminate"); it is represented here as a stored tri-state attribute. -/
structure Cell where
  cell_id : Nat
  target_layer : String
  labels : List (String × Option Char)
  raw_labels : List (String × String)
  holding_qc : Option Bool
  access_qc : Option Bool
  spiking_qc : Option Bool
  cre_type : Option String
deriving DecidableEq, Repr

/-- Modelled from the spec: construction of a fresh `Cell` (`cell.py` is not
under the verified sources).  Per the spec's data model, QC flags default to
unknown (`None`), label maps start empty, and no layer is assigned. -/
def Cell.init (cid : Nat) : Cell :=
  { cell_id := cid
    target_layer := ""
    labels := []
    raw_labels := []
    holding_qc := none
    access_qc := none
    spiking_qc := none
    cre_type := none }

/-- Modelled from the spec: `pass_qc` is the "conjunction of holding/access
QC" computed in the missing `cell.py`, with Python `and` semantics on
tri-state values (`None and x` is `None`, `False and x` is `False`,
`True and x` is `x`). -/
def Cell.pass_qc (c : Cell) : Option Bool :=
  match c.holding_qc with
  | some true => c.access_qc
  | some false => some false
  | none => none

/-- First-match lookup in an insertion-ordered registry, i.e. Python
`cells[i]` (a `dict` holds each key once, so first match is the entry). -/
def findCell : List (Nat × Cell) → Nat → Option Cell
  | [], _ => none
  | (k, c) :: rest, i => if k = i then some c else findCell rest i

/-- Replace the cell object stored under a key (models in-place mutation of
the `Cell` object obtained from `self.cells[cell_id]`). -/
def setCell : List (Nat × Cell) → Nat → Cell → List (Nat × Cell)
  | [], _, _ => []
  | (k, c) :: rest, i, c' => if k = i then (k, c') :: rest else (k, c) :: setCell rest i c'

/-- Python dict assignment `m[k] = v` on an association list: overwrite the
first entry with key `k`, or append `(k, v)` at the end. -/
def setAssoc {β : Type} : List (String × β) → String → β → List (String × β)
  | [], k, v => [(k, v)]
  | (k0, v0) :: rest, k, v =>
    if k0 = k then (k0, v) :: rest else (k0, v0) :: setAssoc rest k v

/-- Python dict lookup `m.get(k)` / `k in m` on an association list. -/
def lookupAssoc {β : Type} : List (String × β) → String → Option β
  | [], _ => none
  | (k0, v0) :: rest, k => if k0 = k then some v0 else lookupAssoc rest k

/-- The body of the doubly nested loop of `Experiment.connections_probed`
(experiment.py lines 604-620): given the outer item `(i, ci)` and inner item
`(j, cj)`, either skip (`continue`) or emit the probed pair `(i, j)`. -/
def probedStep (ic jc : Nat × Cell) : Option (Nat × Nat) :=
  if ic.1 = jc.1 then none
  else if ic.2.spiking_qc ≠ some true then none
  else if jc.2.pass_qc ≠ some true then none
  else if ic.2.cre_type = none ∨ jc.2.cre_type = none then none
  else some (ic.1, jc.1)

/-- Embedding of `Experiment.connections_probed`: all ordered pairs of distinct cells where
the presynaptic cell passed spiking QC, the postsynaptic cell passed combined
ephys QC, and both have a determinate cre type. -/
def connections_probed (cells : List (Nat × Cell)) : List (Nat × Nat) :=
  cells.flatMap fun ic => cells.filterMap fun jc => probedStep ic jc

/-- The parsed state of an `Experiment` relevant to the connection queries:
the cell registry (insertion-ordered), and the curated synaptic / electrical
connection lists (`self._connections` / `self._gaps`; `none` when the list
was never created). -/
structure Experiment where
  cells : List (Nat × Cell)
  _connections : Option (List (Nat × Nat))
  _gaps : Option (List (Nat × Nat))
deriving DecidableEq, Repr

/-- Embedding of `Experiment.connection_calls`: the curated list, or `None`.  (The Python
property returns a slice copy `self._connections[:]`; on immutable values the
copy is the identity — the aliasing behaviour is modelled separately by the
heap model below.) -/
def Experiment.connection_calls (e : Experiment) : Option (List (Nat × Nat)) :=
  e._connections

/-- Embedding of `Experiment.gap_calls`. -/
def Experiment.gap_calls (e : Experiment) : Option (List (Nat × Nat)) :=
  e._gaps

/-- Embedding of `Experiment.connections`: curated connections filtered by membership in
`connections_probed` (`[c for c in calls if c in probed]`), or `None`. -/
def Experiment.connections (e : Experiment) : Option (List (Nat × Nat)) :=
  match e.connection_calls with
  | none => none
  | some calls => some (calls.filter fun c => decide (c ∈ connections_probed e.cells))

/-- Embedding of `Experiment.gaps`: same filtering for the curated electrical connections. -/
def Experiment.gaps (e : Experiment) : Option (List (Nat × Nat)) :=
  match e.gap_calls with
  | none => none
  | some calls => some (calls.filter fun c => decide (c ∈ connections_probed e.cells))

/-! ## `Experiment.summary` (experiment.py lines 563-592) -/

/-- The key of the `csum` dictionary built by `summary`:
`((ci.target_layer, ci.cre_type), (cj.target_layer, cj.cre_type))`. -/
abbrev CellType := (String × Option String) × (String × Option String)

/-- One value of the `csum` dictionary:
`{'connected': n, 'unconnected': m, 'cdist': [...], 'udist': [...]}`.
`δ` is the type of cell-to-cell distances; `Cell.distance` lives in the
missing `cell.py`, so distances are treated as an opaque input. -/
structure SummaryEntry (δ : Type) where
  connected : Nat
  unconnected : Nat
  cdist : List δ
  udist : List δ
deriving DecidableEq, Repr

/-- Embedding of `{'connected': 0, 'unconnected': 0, 'cdist': [], 'udist': []}`. -/
def initEntry {δ : Type} : SummaryEntry δ := ⟨0, 0, [], []⟩

/-- Python's `if typ not in csum: csum[typ] = init` followed by mutating
`csum[typ]`: update the first entry with the given key, appending a fresh
initial entry first when the key is absent. -/
def updateKey {δ : Type} :
    List (CellType × SummaryEntry δ) → CellType → (SummaryEntry δ → SummaryEntry δ) →
    List (CellType × SummaryEntry δ)
  | [], t, f => [(t, f initEntry)]
  | (t0, e) :: rest, t, f =>
    if t0 = t then (t0, f e) :: rest else (t0, e) :: updateKey rest t f

/-- The loop of `summary` over `self.connections_probed`, threading the `csum`
dictionary.  `dist` stands for `Cell.distance` (an external computation from
the missing `cell.py`); a missing cell id raises `KeyError`. -/
def summaryLoop {δ : Type} (cells : List (Nat × Cell)) (conns : List (Nat × Nat))
    (dist : Cell → Cell → δ) :
    List (Nat × Nat) → List (CellType × SummaryEntry δ) →
    Except String (List (CellType × SummaryEntry δ))
  | [], csum => .ok csum
  | (i, j) :: rest, csum =>
    match findCell cells i, findCell cells j with
    | some ci, some cj =>
      let typ : CellType := ((ci.target_layer, ci.cre_type), (cj.target_layer, cj.cre_type))
      if (i, j) ∈ conns then
        summaryLoop cells conns dist rest (updateKey csum typ fun en =>
          { en with connected := en.connected + 1, cdist := en.cdist ++ [dist ci cj] })
      else
        summaryLoop cells conns dist rest (updateKey csum typ fun en =>
          { en with unconnected := en.unconnected + 1, udist := en.udist ++ [dist ci cj] })
    | _, _ => .error "KeyError"

/-- Embedding of `Experiment.summary()`: `None` when `self.connections` is `None`,
otherwise the per-(pre-type, post-type) aggregate over probed pairs. -/
def Experiment.summary {δ : Type} (e : Experiment) (dist : Cell → Cell → δ) :
    Except String (Option (List (CellType × SummaryEntry δ))) :=
  match e.connections with
  | none => .ok none
  | some conns =>
    (summaryLoop e.cells conns dist (connections_probed e.cells) []).map some

/-- Total of the `'connected'` counters of a summary. -/
def connectedTotal {δ : Type} (csum : List (CellType × SummaryEntry δ)) : Nat :=
  (csum.map fun kv => kv.2.connected).sum

/-- Total of the `'unconnected'` counters of a summary. -/
def unconnectedTotal {δ : Type} (csum : List (CellType × SummaryEntry δ)) : Nat :=
  (csum.map fun kv => kv.2.unconnected).sum

/-! ## Regular-expression fragments as character-list parsers -/

/-- Split a consumed `\d+` prefix (possibly empty) from the remainder. -/
def takeDigits : List Char → List Char × List Char
  | [] => ([], [])
  | c :: rest =>
    if c.isDigit then
      let p := takeDigits rest
      (c :: p.1, p.2)
    else ([], c :: rest)

/-- Value of a digit string, as `int(...)` computes it. -/
def digitsToNat (ds : List Char) : Nat :=
  ds.foldl (fun n c => n * 10 + (c.toNat - 48)) 0

/-- Drop leading whitespace (`\s*`). -/
def dropWs : List Char → List Char
  | [] => []
  | c :: rest => if c.isWhitespace then dropWs rest else c :: rest

/-- Accumulating splitter: collect maximal nonblank runs (`cur` holds the
current run, reversed). -/
def splitWsAux : List Char → List Char → List String
  | [], cur => if cur.isEmpty then [] else [String.mk cur.reverse]
  | c :: rest, cur =>
    if c.isWhitespace then
      if cur.isEmpty then splitWsAux rest []
      else String.mk cur.reverse :: splitWsAux rest []
    else splitWsAux rest (c :: cur)

/-- Embedding of `re.split('\s+', line.strip())` restricted to its effect here: the list of
maximal nonblank runs of the line. -/
def splitWs (s : String) : List String :=
  splitWsAux s.toList []

/-- Python `str.startswith`, over character lists. -/
def charsBeginWith : List Char → List Char → Bool
  | [], _ => true
  | _ :: _, [] => false
  | p :: ps, c :: cs => p = c && charsBeginWith ps cs

/-- Python `s.startswith(pre)`. -/
def strStartsWith (s pre : String) : Bool :=
  charsBeginWith pre.toList s.toList

/-- Python `s.endswith(suf)`. -/
def strEndsWith (s suf : String) : Bool :=
  charsBeginWith suf.toList.reverse s.toList.reverse

/-- Python `s[:-1]` (drop the final character). -/
def strDropLast (s : String) : String := String.mk s.toList.dropLast

/-- Python `s[n:]`. -/
def strDrop (s : String) (n : Nat) : String := String.mk (s.toList.drop n)

/-- Python `s.lower()`. -/
def strToLower (s : String) : String := String.mk (s.toList.map Char.toLower)

/-- Python `s.upper()`. -/
def strToUpper (s : String) : String := String.mk (s.toList.map Char.toUpper)

/-- Embedding of `re.match(r'(\d+)(\+|\/|\-|\?)', part)` from `_parse_qc`: a cell id
followed by one QC symbol; as with `re.match`, trailing characters are
ignored.  `none` models a failed match (which the caller turns into a fatal
error). -/
def parseQcToken (s : String) : Option (Nat × Char) :=
  let p := takeDigits s.toList
  if p.1.isEmpty then none
  else
    match p.2 with
    | c :: _ => if c = '+' ∨ c = '/' ∨ c = '-' ∨ c = '?' then some (digitsToNat p.1, c) else none
    | [] => none

/-- Embedding of `val in '+/'`: the QC symbol-to-flag mapping of `_parse_qc` (and of the
YAML `cell_qc` loader). -/
def qcPass (sym : Char) : Bool := sym = '+' ∨ sym = '/'

/-- The result of matching `(\d+)(x)?(\+|\-)?(\?)?` in `_parse_labeling`:
`sign` is the raw third group (`'+'`, `'-'`, or absent). -/
structure LabelToken where
  cell_id : Nat
  absent : Bool
  sign : Option Char
  uncertain : Bool
deriving DecidableEq, Repr

/-- Embedding of `re.match('(\d+)(x)?(\+|\-)?(\?)?', part)` from `_parse_labeling`.
`re.match` anchors only at the start, so any token beginning with digits
matches and trailing characters are ignored. -/
def parse_label_token (s : String) : Option LabelToken :=
  let p := takeDigits s.toList
  if p.1.isEmpty then none
  else
    let r0 := p.2
    let a : Bool × List Char := match r0 with
      | 'x' :: t => (true, t)
      | _ => (false, r0)
    let sg : Option Char × List Char := match a.2 with
      | '+' :: t => (some '+', t)
      | '-' :: t => (some '-', t)
      | _ => (none, a.2)
    let u : Bool := match sg.2 with
      | '?' :: _ => true
      | _ => false
    some ⟨digitsToNat p.1, a.1, sg.1, u⟩

/-- The claim's reading of the marker's "positive" component: `'+'` means
positive (`True`), `'-'` negative (`False`), and no sign means `None`. -/
def labelPositive (sign : Option Char) : Option Bool :=
  sign.map fun c => c = '+'

/-- Embedding of `''.join([x or '' for x in grps[1:]])`: the raw marker string recorded in
`cell._raw_labels`. -/
def rawLabelString (t : LabelToken) : String :=
  (if t.absent then "x" else "") ++
    (match t.sign with | some c => String.mk [c] | none => "") ++
    (if t.uncertain then "?" else "")

/-- Embedding of `re.match(r'(\d+)\s*->\s*(\d+)\s*(\??)\s*(.*)', line.strip())` from
`_parse_connections`: presynaptic id, postsynaptic id, and whether the
optional `?` (questionable-connection marker) is present; the trailing `.*`
swallows any comment. -/
def parseConnLine (s : String) : Option (Nat × Nat × Bool) :=
  let p1 := takeDigits (dropWs s.toList)
  if p1.1.isEmpty then none
  else
    match dropWs p1.2 with
    | '-' :: '>' :: r1 =>
      let p2 := takeDigits (dropWs r1)
      if p2.1.isEmpty then none
      else
        let q : Bool := match dropWs p2.2 with
          | '?' :: _ => true
          | _ => false
        some (digitsToNat p1.1, digitsToNat p2.1, q)
    | _ => none

/-- Embedding of `Experiment._parse_connections` (experiment.py lines 550-561), acting on
the list of child lines of the `Connections` section and on the current
curated list (`self._connections`, freshly set to `[]` by the caller):
an empty section or a leading literal `None` leaves the list untouched;
a malformed line is fatal; a line with the questionable marker is skipped;
otherwise the `(pre, post)` pair is appended.  No check against the cell
registry is performed. -/
def parse_connections (children : List String) (conns : List (Nat × Nat)) :
    Except String (List (Nat × Nat)) :=
  if children.isEmpty ∨ children.head? = some "None" then .ok conns
  else
    children.foldlM (fun acc line =>
      match parseConnLine line with
      | none => .error ("Invalid connection: " ++ line)
      | some (pre, post, q) =>
        if q then .ok acc else .ok (acc ++ [(pre, post)])) conns

/-- The `Connections` section handler of `_load_old_format` (lines 424-427):
`self._connections = []` followed by `_parse_connections`. -/
def connectionsSection (children : List String) : Except String (List (Nat × Nat)) :=
  parse_connections children []

/-! ## `Experiment._parse_qc` (experiment.py lines 522-548) -/

/-- Processing of one token of a Cell QC line: match the token (fatal when it
does not match), look the cell up (Python would raise `KeyError` for an
unknown id), then set the QC flag selected by the line key to
`val in '+/'`; an unrecognized key is fatal. -/
def applyQcToken (cells : List (Nat × Cell)) (key tok : String) :
    Except String (List (Nat × Cell)) :=
  match parseQcToken tok with
  | none => .error ("Invalid cell QC string: " ++ tok)
  | some (cid, sym) =>
    match findCell cells cid with
    | none => .error "KeyError"
    | some cell =>
      if key = "Holding:" then
        .ok (setCell cells cid { cell with holding_qc := some (qcPass sym) })
      else if key = "Access:" then
        .ok (setCell cells cid { cell with access_qc := some (qcPass sym) })
      else if key = "Spiking:" then
        .ok (setCell cells cid { cell with spiking_qc := some (qcPass sym) })
      else .error ("Invalid Cell QC line: " ++ key)

/-- One line of the Cell QC section, after whitespace splitting: the first
part is the key, the rest are tokens. -/
def parse_qc_parts (cells : List (Nat × Cell)) (key : String) (toks : List String) :
    Except String (List (Nat × Cell)) :=
  toks.foldlM (fun cs tok => applyQcToken cs key tok) cells

/-- One raw line of the Cell QC section. -/
def parse_qc_line (cells : List (Nat × Cell)) (line : String) :
    Except String (List (Nat × Cell)) :=
  match splitWs line with
  | [] => .ok cells
  | key :: toks => parse_qc_parts cells key toks

/-- Embedding of `Experiment._parse_qc`: all child lines of the `Cell QC` section. -/
def parse_qc (cells : List (Nat × Cell)) (lines : List String) :
    Except String (List (Nat × Cell)) :=
  lines.foldlM parse_qc_line cells

/-! ## `Experiment._parse_labeling` (experiment.py lines 452-520) -/

/-- Embedding of `layer_labels = ['L1', 'L23pyr', 'L4pyr', 'L5pyr', 'L6pyr']`. -/
def layer_labels : List String := ["L1", "L23pyr", "L4pyr", "L5pyr", "L6pyr"]

/-- Embedding of `if layer == '23': layer = '2/3'`. -/
def normalizeLayer23 (s : String) : String := if s = "23" then "2/3" else s

/-- Python `str.lstrip('L')`: drop leading `'L'` characters. -/
def lstripL : List Char → List Char
  | [] => []
  | c :: rest => if c = 'L' then lstripL rest else c :: rest

/-- Helper for `str.rstrip('pyr')`: drop leading characters drawn from
`{p, y, r}` (applied to the reversed string). -/
def dropPyr : List Char → List Char
  | [] => []
  | c :: rest => if c = 'p' ∨ c = 'y' ∨ c = 'r' then dropPyr rest else c :: rest

/-- Embedding of `cre.lstrip('L').rstrip('pyr')`, the legacy layer-label normalization. -/
def stripLayerLabel (s : String) : String :=
  String.mk ((dropPyr (lstripL s.toList).reverse).reverse)

/-- Processing of one marker token of a Labeling line (lines 491-520): match
the token (fatal when it does not start with digits), look the cell up,
record the raw marker string, then dispatch: a `human_*` name with a positive
marker sets `target_layer` (with `"23"` normalized to `"2/3"`); a legacy
`L*` layer label always sets `target_layer`; any other name stores the raw
sign into `labels[cre]` (fatal if an entry already exists, per the
`assert`). -/
def applyLabelToken (cre : String) (cells : List (Nat × Cell)) (tok : String) :
    Except String (List (Nat × Cell)) :=
  match parse_label_token tok with
  | none => .error ("invalid label record: " ++ tok)
  | some t =>
    match findCell cells t.cell_id with
    | none => .error "KeyError"
    | some cell =>
      let cell1 := { cell with raw_labels := setAssoc cell.raw_labels cre (rawLabelString t) }
      if strStartsWith cre "human_" && t.sign == some '+' then
        .ok (setCell cells t.cell_id
          { cell1 with target_layer := normalizeLayer23 (strToUpper (strDrop cre 7)) })
      else if layer_labels.contains cre then
        .ok (setCell cells t.cell_id
          { cell1 with target_layer := normalizeLayer23 (stripLayerLabel cre) })
      else if (lookupAssoc cell1.labels cre).isSome then
        .error "AssertionError: cre already in cell.labels"
      else
        .ok (setCell cells t.cell_id
          { cell1 with labels := setAssoc cell1.labels cre t.sign })

/-- One line of the Labeling section, after whitespace splitting.  The name
must end with a colon and belong to the label vocabulary, the cre-type
vocabulary, a `human_l*` legacy layer name, or the legacy `L*` layer labels
(`ALL_LABELS` and `ALL_CRE_TYPES` live in the missing `constants.py` and are
passed in as parameters).  A lone `?` token means "no data, skip". -/
def parse_labeling_parts (allLabels allCreTypes : List String)
    (cells : List (Nat × Cell)) (parts : List String) :
    Except String (List (Nat × Cell)) :=
  match parts with
  | [] => .error "AssertionError: empty line"
  | p0 :: rest =>
    if ¬ strEndsWith p0 ":" then .error "AssertionError: no colon"
    else
      let cre := strDropLast p0
      if allLabels.contains cre || allCreTypes.contains cre ||
          strStartsWith (strToLower cre) "human_l" || layer_labels.contains cre then
        if rest = ["?"] then .ok cells
        else rest.foldlM (fun cs tok => applyLabelToken cre cs tok) cells
      else .error ("Invalid label or cre type: " ++ cre)

/-- The cell registry `_load_old_format` always creates (lines 406-413):
`for i in range(1, 9)` produces electrodes 1..8, each owning a fresh cell. -/
def old_format_cells : List (Nat × Cell) :=
  (List.range 8).map fun k => (k + 1, Cell.init (k + 1))

/-! ## The YAML connection/gap loader (experiment.py lines 319-344) -/

/-- One entry of a `synapse_to` / `gap_to` sequence: either a YAML integer or
a string (tentative entries look like `"4?"`). -/
inductive PostRef where
  | num (n : Nat)
  | str (s : String)
deriving DecidableEq, Repr

/-- Embedding of `re.match("^(\d+)(\?)?$", post_id)`: fully anchored, so the whole string
must be digits optionally followed by `?` (the tentative marker). -/
def matchPostStr (s : String) : Option (Nat × Bool) :=
  let p := takeDigits s.toList
  if p.1.isEmpty then none
  else
    match p.2 with
    | [] => some (digitsToNat p.1, false)
    | ['?'] => some (digitsToNat p.1, true)
    | _ => none

/-- The inner `for post_id in conns` loop: a string that fails the anchored
match is fatal (the code then calls `m.groups()` on `None`, raising
`AttributeError`); a tentative entry is skipped; otherwise the postsynaptic
id must exist in the registry (`ValueError` when it does not) and the pair is
appended. -/
def processConnEntries (cells : List (Nat × Cell)) (pre : Nat) :
    List PostRef → List (Nat × Nat) → Except String (List (Nat × Nat))
  | [], acc => .ok acc
  | e :: rest, acc =>
    match e with
    | .str s =>
      match matchPostStr s with
      | none => .error "AttributeError: NoneType object has no attribute groups"
      | some (_, true) => processConnEntries cells pre rest acc
      | some (n, false) =>
        if (findCell cells n).isSome then processConnEntries cells pre rest (acc ++ [(pre, n)])
        else .error "Postsynaptic cell ID is invalid"
    | .num n =>
      if (findCell cells n).isSome then processConnEntries cells pre rest (acc ++ [(pre, n)])
      else .error "Postsynaptic cell ID is invalid"

/-- The per-pipette metadata fields consumed by the connection loader:
`pip_meta.get('synapse_to')` and `pip_meta.get('gap_to')`. -/
structure PipMeta where
  synapse_to : Option (List PostRef)
  gap_to : Option (List PostRef)
deriving DecidableEq, Repr

/-- Lookup in the pipette mapping, i.e. `pips.pipettes[cell.cell_id]`. -/
def findPip : List (Nat × PipMeta) → Nat → Option PipMeta
  | [], _ => none
  | (k, p) :: rest, i => if k = i then some p else findPip rest i

/-- One `(src, dst)` iteration for one cell: when the source sequence is
absent the slot is untouched; otherwise the slot is created (`[]`) if still
`None` and the entries are appended to it. -/
def loadConnSlot (cells : List (Nat × Cell)) (pre : Nat) (entries : Option (List PostRef))
    (slot : Option (List (Nat × Nat))) : Except String (Option (List (Nat × Nat))) :=
  match entries with
  | none => .ok slot
  | some es => (processConnEntries cells pre es (slot.getD [])).map some

/-- The `for cell in self.cells.values()` loop building `self._connections`
and `self._gaps` from the pipette metadata. -/
def loadCellConns (cells : List (Nat × Cell)) (pips : List (Nat × PipMeta)) :
    List (Nat × Cell) → Option (List (Nat × Nat)) → Option (List (Nat × Nat)) →
    Except String (Option (List (Nat × Nat)) × Option (List (Nat × Nat)))
  | [], conns, gaps => .ok (conns, gaps)
  | (cid, _) :: rest, conns, gaps =>
    match findPip pips cid with
    | none => .error "KeyError: pipette"
    | some pm =>
      match loadConnSlot cells cid pm.synapse_to conns with
      | .error m => .error m
      | .ok conns' =>
        match loadConnSlot cells cid pm.gap_to gaps with
        | .error m => .error m
        | .ok gaps' => loadCellConns cells pips rest conns' gaps'

/-- The connection-loading phase of `_load_yml`: both curated lists start as
`None` (set in `__init__`) and are filled by iterating the cell registry. -/
def load_yml_connections (cells : List (Nat × Cell)) (pips : List (Nat × PipMeta)) :
    Except String (Option (List (Nat × Nat)) × Option (List (Nat × Nat))) :=
  loadCellConns cells pips cells none none

/-! ## Aliasing model for `connection_calls` / `gap_calls`

The Python properties return `self._connections[:]` — a fresh list object
holding the same elements.  To state the frame property this implies, lists
are placed in an explicit address-indexed heap: `sliceCopy` allocates a fresh
address holding a copy, and `listSetRef` models in-place mutation of the list
object at an address. -/

/-- A heap of Python list objects: contents per address, plus the next free
address. -/
structure PyListHeap where
  mem : Nat → List (Nat × Nat)
  next : Nat

/-- An `Experiment` whose curated lists are list objects on the heap
(`none` models `self._connections is None`). -/
structure ExperimentRef where
  cells : List (Nat × Cell)
  connAddr : Option Nat
  gapAddr : Option Nat

/-- Embedding of `lst[:]`: allocate a fresh list object with the same contents. -/
def sliceCopy (s : PyListHeap) (a : Nat) : Nat × PyListHeap :=
  (s.next, ⟨fun x => if x = s.next then s.mem a else s.mem x, s.next + 1⟩)

/-- Embedding of `connection_calls` on the heap model:
`None if self._connections is None else self._connections[:]`. -/
def connectionCallsRef (e : ExperimentRef) (s : PyListHeap) : Option Nat × PyListHeap :=
  match e.connAddr with
  | none => (none, s)
  | some a =>
    let p := sliceCopy s a
    (some p.1, p.2)

/-- Embedding of `gap_calls` on the heap model. -/
def gapCallsRef (e : ExperimentRef) (s : PyListHeap) : Option Nat × PyListHeap :=
  match e.gapAddr with
  | none => (none, s)
  | some a =>
    let p := sliceCopy s a
    (some p.1, p.2)

/-- In-place mutation of the list object stored at address `a`. -/
def listSetRef (s : PyListHeap) (a : Nat) (l : List (Nat × Nat)) : PyListHeap :=
  ⟨fun x => if x = a then l else s.mem x, s.next⟩

/-- Dereference an optional list address. -/
def readRef (s : PyListHeap) (oa : Option Nat) : Option (List (Nat × Nat)) :=
  oa.map s.mem

/-- The pure `Experiment` value denoted by a heap-based experiment: all
derived views (`connection_calls`, `connections`, `gaps`, `summary`, ...) are
functions of this value. -/
def expOfRef (e : ExperimentRef) (s : PyListHeap) : Experiment :=
  ⟨e.cells, readRef s e.connAddr, readRef s e.gapAddr⟩

/-! ## Registry lookup lemmas -/

theorem findCell_mem {cells : List (Nat × Cell)} {k : Nat} {c : Cell}
    (h : findCell cells k = some c) : (k, c) ∈ cells := by
  induction cells with
  | nil => simp [findCell] at h
  | cons hd tl ih =>
    obtain ⟨k0, c0⟩ := hd
    by_cases hk : k0 = k
    · subst hk
      simp [findCell] at h
      simp [h]
    · simp [findCell, hk] at h
      exact List.mem_cons_of_mem _ (ih h)

theorem findCell_isSome_of_mem {cells : List (Nat × Cell)} {k : Nat} {c : Cell}
    (h : (k, c) ∈ cells) : (findCell cells k).isSome := by
  induction cells with
  | nil => simp at h
  | cons hd tl ih =>
    obtain ⟨k0, c0⟩ := hd
    rcases List.mem_cons.mp h with h1 | h1
    · obtain ⟨hk, hc⟩ := Prod.mk.injEq .. ▸ h1
      simp [findCell, hk.symm]
    · by_cases hk : k0 = k
      · simp [findCell, hk]
      · simpa [findCell, hk] using ih h1

theorem findCell_eq_some_of_mem {cells : List (Nat × Cell)} {k : Nat} {c : Cell}
    (hnd : (cells.map Prod.fst).Nodup) (h : (k, c) ∈ cells) :
    findCell cells k = some c := by
  induction cells with
  | nil => simp at h
  | cons hd tl ih =>
    obtain ⟨k0, c0⟩ := hd
    simp only [List.map_cons, List.nodup_cons] at hnd
    rcases List.mem_cons.mp h with h1 | h1
    · obtain ⟨hk, hc⟩ := Prod.mk.injEq .. ▸ h1
      simp [findCell, hk.symm, hc.symm]
    · by_cases hk : k0 = k
      · exfalso
        exact hnd.1 (hk ▸ (List.mem_map.mpr ⟨(k, c), h1, rfl⟩))
      · simpa [findCell, hk] using ih hnd.2 h1

/-! ## `connections_probed` membership -/

theorem probedStep_eq_some {ic jc : Nat × Cell} {p : Nat × Nat} :
    probedStep ic jc = some p ↔
      ic.1 ≠ jc.1 ∧ ic.2.spiking_qc = some true ∧ jc.2.pass_qc = some true ∧
        ic.2.cre_type ≠ none ∧ jc.2.cre_type ≠ none ∧ p = (ic.1, jc.1) := by
  unfold probedStep
  split_ifs with h1 h2 h3 h4
  · simp [h1]
  · simp only [not_not] at h2
    simp [h2]
  · simp only [not_not] at h3
    simp [h3]
  · push_neg at h2 h3
    simp only [ne_eq, false_iff, not_and]
    intro _ _ _ hc1 hc2 _
    rcases h4 with h4 | h4
    · exact hc1 h4
    · exact hc2 h4
  · push_neg at h2 h3 h4
    simp only [Option.some.injEq]
    constructor
    · intro hp
      exact ⟨h1, h2, h3, h4.1, h4.2, hp.symm⟩
    · intro hp
      exact hp.2.2.2.2.2.symm

theorem mem_connections_probed {cells : List (Nat × Cell)} {p : Nat × Nat} :
    p ∈ connections_probed cells ↔
      ∃ ci cj, (p.1, ci) ∈ cells ∧ (p.2, cj) ∈ cells ∧ p.1 ≠ p.2 ∧
        ci.spiking_qc = some true ∧ cj.pass_qc = some true ∧
        ci.cre_type ≠ none ∧ cj.cre_type ≠ none := by
  unfold connections_probed
  rw [List.mem_flatMap]
  constructor
  · rintro ⟨ic, hic, hmem⟩
    rw [List.mem_filterMap] at hmem
    obtain ⟨jc, hjc, hstep⟩ := hmem
    obtain ⟨hne, hsp, hpq, hcre1, hcre2, hp⟩ := probedStep_eq_some.mp hstep
    subst hp
    exact ⟨ic.2, jc.2, hic, hjc, hne, hsp, hpq, hcre1, hcre2⟩
  · rintro ⟨ci, cj, hci, hcj, hne, hsp, hpq, hcre1, hcre2⟩
    refine ⟨(p.1, ci), hci, ?_⟩
    rw [List.mem_filterMap]
    exact ⟨(p.2, cj), hcj, probedStep_eq_some.mpr ⟨hne, hsp, hpq, hcre1, hcre2, rfl⟩⟩

/-! ## Concrete fixtures used by witnesses -/

/-- A cell passing every QC with a determinate cre type. -/
def cellA : Cell := { Cell.init 1 with
  spiking_qc := some true
  holding_qc := some true
  access_qc := some true
  cre_type := some "sst" }

/-- A second fully passing cell. -/
def cellB : Cell := { Cell.init 2 with
  spiking_qc := some true
  holding_qc := some true
  access_qc := some true
  cre_type := some "pvalb" }

/-- A two-cell registry. -/
def demoCells : List (Nat × Cell) := [(1, cellA), (2, cellB)]

/-- An experiment whose curated list holds one probeable pair `(1, 2)` and
one pair `(3, 9)` referencing no registered cell. -/
def demoExp : Experiment := ⟨demoCells, some [(1, 2), (3, 9)], none⟩

/-! ## Claims C1 and C3 -/

/-- C1: for every parsed experiment whose curated connection list exists,
every pair reported by `connections` also appears in `connections_probed`
(the `connections` property filters the curated calls by membership in the
probed list). -/
theorem C1_connections_subset_probed (e : Experiment) (cl : List (Nat × Nat))
    (h : e.connections = some cl) : ∀ p ∈ cl, p ∈ connections_probed e.cells := by
  intro p hp
  unfold Experiment.connections Experiment.connection_calls at h
  cases hc : e._connections with
  | none => rw [hc] at h; simp at h
  | some calls =>
    rw [hc] at h
    simp only [Option.some.injEq] at h
    subst h
    exact of_decide_eq_true (List.mem_filter.mp hp).2

/-- Witness for C1: on `demoExp` the curated list `[(1,2), (3,9)]` is filtered
to `[(1,2)]`, and the theorem yields its containment in the probed list. -/
theorem C1_witness :
    demoExp.connections = some [(1, 2)] ∧
      ∀ p ∈ [((1 : Nat), (2 : Nat))], p ∈ connections_probed demoExp.cells := by
  refine ⟨by decide, ?_⟩
  exact C1_connections_subset_probed demoExp [(1, 2)] (by decide)

/-- C3: for a registry without duplicate ids, `(i, j)` is probed exactly when
`i ≠ j`, cell `i` exists with `spiking_qc` exactly `True`, cell `j` exists
with `pass_qc` exactly `True`, and both cells have a determinate (non-`None`)
cre type; in particular no self-pair `(i, i)` ever appears. -/
theorem C3_probed_iff (cells : List (Nat × Cell))
    (hnd : (cells.map Prod.fst).Nodup) (i j : Nat) :
    (i, j) ∈ connections_probed cells ↔
      i ≠ j ∧ ∃ ci cj, findCell cells i = some ci ∧ findCell cells j = some cj ∧
        ci.spiking_qc = some true ∧ cj.pass_qc = some true ∧
        ci.cre_type ≠ none ∧ cj.cre_type ≠ none := by
  rw [mem_connections_probed]
  constructor
  · rintro ⟨ci, cj, hci, hcj, hne, h⟩
    exact ⟨hne, ci, cj, findCell_eq_some_of_mem hnd hci, findCell_eq_some_of_mem hnd hcj, h⟩
  · rintro ⟨hne, ci, cj, hci, hcj, h⟩
    exact ⟨ci, cj, findCell_mem hci, findCell_mem hcj, hne, h⟩

/-- Witness for C3: in the two-cell registry, the pair `(1, 2)` is probed
(both cells pass the relevant QC and have determinate cre types). -/
theorem C3_witness : (1, 2) ∈ connections_probed demoCells :=
  (C3_probed_iff demoCells (by decide) 1 2).mpr
    ⟨by decide, cellA, cellB, by decide, by decide, by decide, by decide, by decide, by decide⟩

/-! ## Claim C2: summary counts partition the probed pairs -/

theorem connectedTotal_updateKey {δ : Type} (f : SummaryEntry δ → SummaryEntry δ) (k : Nat)
    (hf : ∀ en, (f en).connected = en.connected + k) :
    ∀ (csum : List (CellType × SummaryEntry δ)) (t : CellType),
      connectedTotal (updateKey csum t f) = connectedTotal csum + k := by
  intro csum t
  induction csum with
  | nil => simp [updateKey, connectedTotal, hf, initEntry]
  | cons hd tl ih =>
    obtain ⟨t0, en⟩ := hd
    by_cases h : t0 = t
    · simp only [updateKey, if_pos h, connectedTotal, List.map_cons, List.sum_cons, hf]
      omega
    · simp only [updateKey, if_neg h, connectedTotal, List.map_cons, List.sum_cons] at ih ⊢
      omega

theorem unconnectedTotal_updateKey {δ : Type} (f : SummaryEntry δ → SummaryEntry δ) (k : Nat)
    (hf : ∀ en, (f en).unconnected = en.unconnected + k) :
    ∀ (csum : List (CellType × SummaryEntry δ)) (t : CellType),
      unconnectedTotal (updateKey csum t f) = unconnectedTotal csum + k := by
  intro csum t
  induction csum with
  | nil => simp [updateKey, unconnectedTotal, hf, initEntry]
  | cons hd tl ih =>
    obtain ⟨t0, en⟩ := hd
    by_cases h : t0 = t
    · simp only [updateKey, if_pos h, unconnectedTotal, List.map_cons, List.sum_cons, hf]
      omega
    · simp only [updateKey, if_neg h, unconnectedTotal, List.map_cons, List.sum_cons] at ih ⊢
      omega

theorem summaryLoop_totals {δ : Type} (cells : List (Nat × Cell))
    (conns : List (Nat × Nat)) (dist : Cell → Cell → δ) :
    ∀ (ps : List (Nat × Nat)) (csum out : List (CellType × SummaryEntry δ)),
      summaryLoop cells conns dist ps csum = .ok out →
      connectedTotal out
          = connectedTotal csum + (ps.filter fun p => decide (p ∈ conns)).length ∧
        unconnectedTotal out
          = unconnectedTotal csum + (ps.filter fun p => ! decide (p ∈ conns)).length := by
  intro ps
  induction ps with
  | nil =>
    intro csum out h
    simp only [summaryLoop] at h
    cases h
    simp
  | cons hd rest ih =>
    intro csum out h
    obtain ⟨i, j⟩ := hd
    cases hfi : findCell cells i with
    | none =>
      simp only [summaryLoop, hfi] at h
      simp at h
    | some ci =>
      cases hfj : findCell cells j with
      | none =>
        simp only [summaryLoop, hfi, hfj] at h
        simp at h
      | some cj =>
        simp only [summaryLoop, hfi, hfj] at h
        by_cases hmem : (i, j) ∈ conns
        · rw [if_pos hmem] at h
          obtain ⟨h1, h2⟩ := ih _ _ h
          constructor
          · rw [h1, connectedTotal_updateKey
              (fun en => { en with connected := en.connected + 1, cdist := en.cdist ++ [dist ci cj] })
              1 (fun en => rfl)]
            simp [hmem]
            omega
          · rw [h2, unconnectedTotal_updateKey
              (fun en => { en with connected := en.connected + 1, cdist := en.cdist ++ [dist ci cj] })
              0 (fun en => rfl)]
            simp [hmem]
        · rw [if_neg hmem] at h
          obtain ⟨h1, h2⟩ := ih _ _ h
          constructor
          · rw [h1, connectedTotal_updateKey
              (fun en => { en with unconnected := en.unconnected + 1, udist := en.udist ++ [dist ci cj] })
              0 (fun en => rfl)]
            simp [hmem]
          · rw [h2, unconnectedTotal_updateKey
              (fun en => { en with unconnected := en.unconnected + 1, udist := en.udist ++ [dist ci cj] })
              1 (fun en => rfl)]
            simp [hmem]
            omega

theorem summaryLoop_ok {δ : Type} (cells : List (Nat × Cell))
    (conns : List (Nat × Nat)) (dist : Cell → Cell → δ) :
    ∀ (ps : List (Nat × Nat)) (csum : List (CellType × SummaryEntry δ)),
      (∀ p ∈ ps, (findCell cells p.1).isSome ∧ (findCell cells p.2).isSome) →
      ∃ out, summaryLoop cells conns dist ps csum = .ok out := by
  intro ps
  induction ps with
  | nil => intro csum _; exact ⟨csum, rfl⟩
  | cons hd rest ih =>
    intro csum hps
    obtain ⟨i, j⟩ := hd
    obtain ⟨hi, hj⟩ := hps (i, j) (List.mem_cons_self _ _)
    obtain ⟨ci, hci⟩ := Option.isSome_iff_exists.mp hi
    obtain ⟨cj, hcj⟩ := Option.isSome_iff_exists.mp hj
    have hrest : ∀ p ∈ rest, (findCell cells p.1).isSome ∧ (findCell cells p.2).isSome :=
      fun p hp => hps p (List.mem_cons_of_mem _ hp)
    simp only [summaryLoop, hci, hcj]
    by_cases hmem : (i, j) ∈ conns
    · rw [if_pos hmem]; exact ih _ hrest
    · rw [if_neg hmem]; exact ih _ hrest

/-- C2: for every experiment whose curated connection list exists, `summary()`
succeeds and its `'connected'` totals count exactly the probed pairs present
in `connections`, its `'unconnected'` totals count exactly the remaining
probed pairs, and together they count every probed pair exactly once. -/
theorem C2_summary_counts {δ : Type} (e : Experiment) (dist : Cell → Cell → δ)
    (conns : List (Nat × Nat)) (h : e.connections = some conns) :
    ∃ csum, e.summary dist = .ok (some csum) ∧
      connectedTotal csum
        = ((connections_probed e.cells).filter fun p => decide (p ∈ conns)).length ∧
      unconnectedTotal csum
        = ((connections_probed e.cells).filter fun p => ! decide (p ∈ conns)).length ∧
      connectedTotal csum + unconnectedTotal csum = (connections_probed e.cells).length := by
  have hsome : ∀ p ∈ connections_probed e.cells,
      (findCell e.cells p.1).isSome ∧ (findCell e.cells p.2).isSome := by
    intro p hp
    obtain ⟨ci, cj, hci, hcj, -⟩ := mem_connections_probed.mp hp
    exact ⟨findCell_isSome_of_mem hci, findCell_isSome_of_mem hcj⟩
  obtain ⟨out, hout⟩ :=
    summaryLoop_ok e.cells conns dist (connections_probed e.cells) [] hsome
  obtain ⟨h1, h2⟩ := summaryLoop_totals e.cells conns dist _ _ _ hout
  refine ⟨out, ?_, ?_, ?_, ?_⟩
  · simp only [Experiment.summary, h, hout]
    rfl
  · simpa [connectedTotal] using h1
  · simpa [unconnectedTotal] using h2
  · rw [h1, h2]
    simp only [connectedTotal, unconnectedTotal, List.map_nil, List.sum_nil, Nat.zero_add]
    exact (List.length_eq_length_filter_add (fun p => decide (p ∈ conns))).symm

/-- Witness for C2: on `demoExp` the summary exists and its counts split the
two probed pairs into one connected and one unconnected. -/
theorem C2_witness :
    ∃ csum, demoExp.summary (fun _ _ => (0 : Int)) = .ok (some csum) ∧
      connectedTotal csum
        = ((connections_probed demoExp.cells).filter
            fun p => decide (p ∈ [((1 : Nat), (2 : Nat))])).length ∧
      unconnectedTotal csum
        = ((connections_probed demoExp.cells).filter
            fun p => ! decide (p ∈ [((1 : Nat), (2 : Nat))])).length ∧
      connectedTotal csum + unconnectedTotal csum = (connections_probed demoExp.cells).length :=
  C2_summary_counts demoExp (fun _ _ => (0 : Int)) [(1, 2)] (by decide)

/-! ## Claim C7: questionable connection lines are dropped -/

/-- C7: whatever the state of the curated list, a `Connections` line
`"2 -> 5 ?"` is silently dropped, while `"2 -> 5"` appends exactly the pair
`(2, 5)` once (so each occurrence of the line adds one copy). -/
theorem C7_questionable_dropped (conns : List (Nat × Nat)) :
    parse_connections ["2 -> 5 ?"] conns = .ok conns ∧
      parse_connections ["2 -> 5"] conns = .ok (conns ++ [(2, 5)]) ∧
      (conns ++ [(2, 5)]).count (2, 5) = conns.count (2, 5) + 1 := by
  refine ⟨rfl, rfl, ?_⟩
  simp

/-- Witness for C7: applied to a nonempty prior curated list. -/
theorem C7_witness :
    parse_connections ["2 -> 5 ?"] [(9, 9)] = .ok [(9, 9)] ∧
      parse_connections ["2 -> 5"] [(9, 9)] = .ok ([(9, 9)] ++ [(2, 5)]) ∧
      ([((9 : Nat), (9 : Nat))] ++ [(2, 5)]).count (2, 5) = [((9 : Nat), (9 : Nat))].count (2, 5) + 1 :=
  C7_questionable_dropped [(9, 9)]

/-! ## Claim C5: label marker tokens (corrected) -/

/-- Counterexample to C5: the token `"5y"` does not match the marker grammar
as a whole, yet `re.match` anchors only at the start, so parsing succeeds
(cell 5, no flags) instead of raising a fatal error. -/
theorem C5_counterexample :
    parse_label_token "5y" = some ⟨5, false, none, false⟩ ∧
      parse_label_token "5y" ≠ none := by
  refine ⟨by decide, by decide⟩

/-- C5 as amended: `"3+"` parses to (absent=False, positive=True,
uncertain=False) and `"4x?"` to (absent=True, positive=None, uncertain=True);
a token that does not begin with digits (e.g. `"y5"`) raises a fatal error,
but a token with a digit prefix and trailing junk (e.g. `"5y"`) parses
successfully with the junk ignored. -/
theorem C5_amended_marker_tokens :
    parse_label_token "3+" = some ⟨3, false, some '+', false⟩ ∧
      labelPositive (some '+') = some true ∧
      parse_label_token "4x?" = some ⟨4, true, none, true⟩ ∧
      labelPositive none = none ∧
      parse_label_token "y5" = none ∧
      parse_label_token "5y" = some ⟨5, false, none, false⟩ := by
  refine ⟨by decide, rfl, by decide, rfl, by decide, by decide⟩

/-! ## Claim C4: Cell QC symbols (corrected) -/

/-- Counterexample to C4: the token `"1?"` on a `Holding:` line sets the
cell's `holding_qc` to `False` (fail), because `_parse_qc` stores
`val in '+/'`; it does not store the indeterminate value `None`. -/
theorem C4_counterexample :
    parse_qc [(1, Cell.init 1)] ["Holding: 1?"]
        = .ok [(1, { Cell.init 1 with holding_qc := some false })] ∧
      (some false : Option Bool) ≠ none := by
  refine ⟨rfl, by decide⟩

/-- C4 as amended: for every well-formed token `<cell-id><sym>`, symbols `+`
and `/` set the selected QC flag to pass and symbols `-` and `?` set it to
fail (`?` is not mapped to the indeterminate value); a malformed token is a
fatal parse error, and an unrecognized line key is a fatal parse error for
every well-formed token on the line. -/
theorem C4_amended_qc_symbols :
    (qcPass '+' = true ∧ qcPass '/' = true ∧ qcPass '-' = false ∧ qcPass '?' = false) ∧
      (∀ (cells : List (Nat × Cell)) (tok : String) (cid : Nat) (sym : Char) (c : Cell),
        parseQcToken tok = some (cid, sym) → findCell cells cid = some c →
          applyQcToken cells "Holding:" tok
              = .ok (setCell cells cid { c with holding_qc := some (qcPass sym) }) ∧
            applyQcToken cells "Access:" tok
              = .ok (setCell cells cid { c with access_qc := some (qcPass sym) }) ∧
            applyQcToken cells "Spiking:" tok
              = .ok (setCell cells cid { c with spiking_qc := some (qcPass sym) })) ∧
      (∀ (cells : List (Nat × Cell)) (key tok : String) (cid : Nat) (sym : Char) (c : Cell),
        parseQcToken tok = some (cid, sym) → findCell cells cid = some c →
          key ≠ "Holding:" → key ≠ "Access:" → key ≠ "Spiking:" →
          applyQcToken cells key tok = .error ("Invalid Cell QC line: " ++ key)) ∧
      (∀ (cells : List (Nat × Cell)) (key tok : String),
        parseQcToken tok = none →
          applyQcToken cells key tok = .error ("Invalid cell QC string: " ++ tok)) := by
  refine ⟨⟨rfl, rfl, rfl, rfl⟩, ?_, ?_, ?_⟩
  · intro cells tok cid sym c htok hfind
    refine ⟨?_, ?_, ?_⟩ <;> simp [applyQcToken, htok, hfind]
  · intro cells key tok cid sym c htok hfind h1 h2 h3
    simp [applyQcToken, htok, hfind, h1, h2, h3]
  · intro cells key tok htok
    simp [applyQcToken, htok]

/-- Witness for C4 (amended): applying the theorem to a one-cell registry,
the token `"1-"` on each line kind, the key `"Bogus:"`, and the malformed
token `"zz"`. -/
theorem C4_witness :
    (applyQcToken [(1, Cell.init 1)] "Holding:" "1-"
        = .ok [(1, { Cell.init 1 with holding_qc := some (qcPass '-') })] ∧
      applyQcToken [(1, Cell.init 1)] "Access:" "1-"
        = .ok [(1, { Cell.init 1 with access_qc := some (qcPass '-') })] ∧
      applyQcToken [(1, Cell.init 1)] "Spiking:" "1-"
        = .ok [(1, { Cell.init 1 with spiking_qc := some (qcPass '-') })]) ∧
      applyQcToken [(1, Cell.init 1)] "Bogus:" "1-"
        = .error ("Invalid Cell QC line: " ++ "Bogus:") ∧
      applyQcToken [(1, Cell.init 1)] "Holding:" "zz"
        = .error ("Invalid cell QC string: " ++ "zz") := by
  refine ⟨?_, ?_, ?_⟩
  · exact C4_amended_qc_symbols.2.1 [(1, Cell.init 1)] "1-" 1 '-' (Cell.init 1)
      (by decide) (by decide)
  · exact C4_amended_qc_symbols.2.2.1 [(1, Cell.init 1)] "Bogus:" "1-" 1 '-' (Cell.init 1)
      (by decide) (by decide) (by decide) (by decide) (by decide)
  · exact C4_amended_qc_symbols.2.2.2 [(1, Cell.init 1)] "Holding:" "zz" (by decide)

/-! ## Claim C6: referential integrity of connection entries (corrected) -/

/-- Counterexample to C6: in the old format, `_parse_connections` performs no
check against the cell registry — the line `"9 -> 12"` is accepted and the
curated list ends up holding the pair `(9, 12)` although neither id exists
among the cells 1..8 that `_load_old_format` creates. -/
theorem C6_counterexample :
    parse_connections ["9 -> 12"] [] = .ok [(9, 12)] ∧
      findCell old_format_cells 9 = none ∧ findCell old_format_cells 12 = none := by
  refine ⟨rfl, by decide, by decide⟩

/-- C6 as amended: in the YAML format a `synapse_to`/`gap_to` entry whose
postsynaptic id is not in the registry is a fatal error (whether written as
an integer or as a digit string), but old-format `Connections` parsing never
validates ids against the registry, so its curated list can contain cell ids
absent from the registry. -/
theorem C6_amended_reference_validation :
    (∀ (cells : List (Nat × Cell)) (pre n : Nat) (acc : List (Nat × Nat)),
      findCell cells n = none →
        processConnEntries cells pre [PostRef.num n] acc
          = .error "Postsynaptic cell ID is invalid") ∧
      (∀ (cells : List (Nat × Cell)) (pre : Nat) (s : String) (n : Nat) (acc : List (Nat × Nat)),
        matchPostStr s = some (n, false) → findCell cells n = none →
          processConnEntries cells pre [PostRef.str s] acc
            = .error "Postsynaptic cell ID is invalid") ∧
      (parse_connections ["9 -> 12"] [] = .ok [(9, 12)] ∧
        findCell old_format_cells 9 = none) := by
  refine ⟨?_, ?_, rfl, by decide⟩
  · intro cells pre n acc hn
    simp [processConnEntries, hn]
  · intro cells pre s n acc hs hn
    simp [processConnEntries, hs, hn]

/-- Witness for C6 (amended): a registry holding only cell 1 rejects a
reference to cell 9, in both entry spellings. -/
theorem C6_witness :
    processConnEntries [(1, Cell.init 1)] 1 [PostRef.num 9] []
        = .error "Postsynaptic cell ID is invalid" ∧
      processConnEntries [(1, Cell.init 1)] 1 [PostRef.str "9"] []
        = .error "Postsynaptic cell ID is invalid" :=
  ⟨C6_amended_reference_validation.1 [(1, Cell.init 1)] 1 9 [] (by decide),
    C6_amended_reference_validation.2.1 [(1, Cell.init 1)] 1 "9" 9 [] (by decide) (by decide)⟩

/-! ## Claim C8: legacy layer-encoding labels (corrected) -/

/-- Counterexample to C8: under the legacy layer-encoding name `human_l4`, a
non-positive marker token (`"3-"`) is *not* redirected into `target_layer`;
it is stored in the cell's `labels` mapping (the redirect requires
`positive == '+'`). -/
theorem C8_counterexample :
    parse_labeling_parts [] [] [(3, Cell.init 3)] ["human_l4:", "3-"]
        = .ok [(3, { Cell.init 3 with
                      raw_labels := [("human_l4", "-")]
                      labels := [("human_l4", some '-')] })] ∧
      lookupAssoc [("human_l4", some '-')] "human_l4" = some (some '-') ∧
      (Cell.init 3).target_layer = "" := by
  refine ⟨rfl, by decide, rfl⟩

/-- C8 as amended: a `human_*` name is redirected into `target_layer` (with
`"23"` normalized to `"2/3"`) only when the marker is positive (`'+'`), and
then `labels` receives no entry; the legacy names `L1`/`L23pyr`/`L4pyr`/
`L5pyr`/`L6pyr` always redirect into `target_layer` and never touch
`labels`; any other token — including one under a `human_*` name with a
non-positive marker — populates `labels[name]` with the raw sign and leaves
`target_layer` unchanged. -/
theorem C8_amended_layer_redirect :
    (∀ (cre : String) (cells : List (Nat × Cell)) (tok : String) (t : LabelToken) (cell : Cell),
      parse_label_token tok = some t → findCell cells t.cell_id = some cell →
        strStartsWith cre "human_" = true → t.sign = some '+' →
        applyLabelToken cre cells tok = .ok (setCell cells t.cell_id
          { cell with
              raw_labels := setAssoc cell.raw_labels cre (rawLabelString t)
              target_layer := normalizeLayer23 (strToUpper (strDrop cre 7)) })) ∧
      (∀ (cre : String) (cells : List (Nat × Cell)) (tok : String) (t : LabelToken) (cell : Cell),
        parse_label_token tok = some t → findCell cells t.cell_id = some cell →
          layer_labels.contains cre = true →
          applyLabelToken cre cells tok = .ok (setCell cells t.cell_id
            { cell with
                raw_labels := setAssoc cell.raw_labels cre (rawLabelString t)
                target_layer := normalizeLayer23 (stripLayerLabel cre) })) ∧
      (∀ (cre : String) (cells : List (Nat × Cell)) (tok : String) (t : LabelToken) (cell : Cell),
        parse_label_token tok = some t → findCell cells t.cell_id = some cell →
          (strStartsWith cre "human_" && t.sign == some '+') = false →
          layer_labels.contains cre = false →
          lookupAssoc cell.labels cre = none →
          applyLabelToken cre cells tok = .ok (setCell cells t.cell_id
            { cell with
                raw_labels := setAssoc cell.raw_labels cre (rawLabelString t)
                labels := setAssoc cell.labels cre t.sign })) := by
  refine ⟨?_, ?_, ?_⟩
  · intro cre cells tok t cell htok hfind hstart hsign
    simp [applyLabelToken, htok, hfind, hstart, hsign]
  · intro cre cells tok t cell htok hfind hlay
    have hmem : cre ∈ layer_labels := by simpa using hlay
    have hstart : strStartsWith cre "human_" = false := by
      fin_cases hmem <;> decide
    have hstart' : (strStartsWith cre "human_" && t.sign == some '+') = false := by
      rw [hstart]; rfl
    simp only [applyLabelToken, htok, hfind, hstart', hlay]
    simp
  · intro cre cells tok t cell htok hfind hcond hlay hlab
    simp only [applyLabelToken, htok, hfind, hcond, hlay, hlab]
    simp

/-- Witness for C8 (amended): `"3+"` under `human_l23` sets layer `"2/3"`,
`"3-"` under `L23pyr` sets layer `"2/3"`, and `"3+"` under the vocabulary
name `sst` populates `labels` instead. -/
theorem C8_witness :
    applyLabelToken "human_l23" [(3, Cell.init 3)] "3+"
        = .ok [(3, { Cell.init 3 with
                      raw_labels := [("human_l23", "+")]
                      target_layer := "2/3" })] ∧
      applyLabelToken "L23pyr" [(3, Cell.init 3)] "3-"
        = .ok [(3, { Cell.init 3 with
                      raw_labels := [("L23pyr", "-")]
                      target_layer := "2/3" })] ∧
      applyLabelToken "sst" [(3, Cell.init 3)] "3+"
        = .ok [(3, { Cell.init 3 with
                      raw_labels := [("sst", "+")]
                      labels := [("sst", some '+')] })] :=
  ⟨C8_amended_layer_redirect.1 "human_l23" [(3, Cell.init 3)] "3+"
      ⟨3, false, some '+', false⟩ (Cell.init 3) (by decide) (by decide) (by decide) (by decide),
    C8_amended_layer_redirect.2.1 "L23pyr" [(3, Cell.init 3)] "3-"
      ⟨3, false, some '-', false⟩ (Cell.init 3) (by decide) (by decide) (by decide),
    C8_amended_layer_redirect.2.2 "sst" [(3, Cell.init 3)] "3+"
      ⟨3, false, some '+', false⟩ (Cell.init 3) (by decide) (by decide) (by decide)
      (by decide) (by decide)⟩

/-! ## Claim C10: `None` vs empty curated list -/

theorem findPip_mem {pips : List (Nat × PipMeta)} {k : Nat} {p : PipMeta}
    (h : findPip pips k = some p) : (k, p) ∈ pips := by
  induction pips with
  | nil => simp [findPip] at h
  | cons hd tl ih =>
    obtain ⟨k0, p0⟩ := hd
    by_cases hk : k0 = k
    · subst hk
      simp [findPip] at h
      simp [h]
    · simp [findPip, hk] at h
      exact List.mem_cons_of_mem _ (ih h)

theorem loadCellConns_conns_none (cells : List (Nat × Cell)) (pips : List (Nat × PipMeta))
    (hsyn : ∀ p ∈ pips, (p.2).synapse_to = none) :
    ∀ (cl : List (Nat × Cell)) (gaps : Option (List (Nat × Nat)))
      (r : Option (List (Nat × Nat)) × Option (List (Nat × Nat))),
      loadCellConns cells pips cl none gaps = .ok r → r.1 = none := by
  intro cl
  induction cl with
  | nil =>
    intro gaps r h
    simp only [loadCellConns] at h
    cases h
    rfl
  | cons hd rest ih =>
    intro gaps r h
    obtain ⟨cid, c⟩ := hd
    cases hfp : findPip pips cid with
    | none =>
      simp only [loadCellConns, hfp] at h
      simp at h
    | some pm =>
      have hnone : pm.synapse_to = none := hsyn (cid, pm) (findPip_mem hfp)
      have hred : loadConnSlot cells cid pm.synapse_to none = .ok none := by
        rw [hnone]; rfl
      simp only [loadCellConns, hfp, hred] at h
      cases hgap : loadConnSlot cells cid pm.gap_to gaps with
      | error m => rw [hgap] at h; simp at h
      | ok gaps' =>
        rw [hgap] at h
        exact ih gaps' r h

/-- C10: when no pipette of a YAML-format experiment declares a `synapse_to`
entry, the curated connection list is never created, so `connection_calls`,
`connections` and `summary()` all return `None`; by contrast an explicitly
empty (or literal `None`) old-format `Connections` section produces an empty
list, and `connection_calls` then returns that empty list. -/
theorem C10_none_propagation {δ : Type} (dist : Cell → Cell → δ) :
    (∀ (cells : List (Nat × Cell)) (pips : List (Nat × PipMeta))
        (r : Option (List (Nat × Nat)) × Option (List (Nat × Nat))),
      (∀ p ∈ pips, (p.2).synapse_to = none) →
      load_yml_connections cells pips = .ok r →
      r.1 = none ∧ (Experiment.mk cells r.1 r.2).connection_calls = none ∧
        (Experiment.mk cells r.1 r.2).connections = none ∧
        (Experiment.mk cells r.1 r.2).summary dist = .ok none) ∧
      connectionsSection [] = .ok [] ∧
      connectionsSection ["None"] = .ok [] ∧
      (∀ (cells : List (Nat × Cell)) (g : Option (List (Nat × Nat))),
        (Experiment.mk cells (some []) g).connection_calls = some []) := by
  refine ⟨?_, rfl, rfl, fun cells g => rfl⟩
  intro cells pips r hsyn hload
  have h1 : r.1 = none := loadCellConns_conns_none cells pips hsyn cells none r hload
  refine ⟨h1, ?_, ?_, ?_⟩
  · simp [Experiment.connection_calls, h1]
  · simp [Experiment.connections, Experiment.connection_calls, h1]
  · simp [Experiment.summary, Experiment.connections, Experiment.connection_calls, h1]

/-- Witness for C10: a two-pipette experiment with only a `gap_to` entry
leaves the curated connection list as `None` while creating the gaps list. -/
theorem C10_witness :
    load_yml_connections demoCells [(1, ⟨none, none⟩), (2, ⟨none, some [PostRef.num 1]⟩)]
        = .ok (none, some [(2, 1)]) ∧
      (Experiment.mk demoCells none (some [(2, 1)])).connection_calls = none ∧
      (Experiment.mk demoCells none (some [(2, 1)])).connections = none ∧
      (Experiment.mk demoCells none (some [(2, 1)])).summary (fun _ _ => (0 : Int))
          = .ok none := by
  have hload : load_yml_connections demoCells
      [(1, ⟨none, none⟩), (2, ⟨none, some [PostRef.num 1]⟩)] = .ok (none, some [(2, 1)]) := rfl
  have h := (C10_none_propagation (fun _ _ => (0 : Int))).1 demoCells
    [(1, ⟨none, none⟩), (2, ⟨none, some [PostRef.num 1]⟩)] (none, some [(2, 1)])
    (by decide) hload
  exact ⟨hload, h.2.1, h.2.2.1, h.2.2.2⟩

/-! ## Claim C9: `connection_calls` / `gap_calls` return fresh copies -/

/-- C9: `connection_calls` and `gap_calls` return fresh list objects holding
the same contents as the internal curated lists; mutating the returned object
leaves the experiment's state — and therefore every derived read
(`connection_calls`, `connections`, `gaps`, `summary()`) — unchanged. -/
theorem C9_calls_return_copies (e : ExperimentRef) (s : PyListHeap) (a g : Nat)
    (hc : e.connAddr = some a) (hg : e.gapAddr = some g)
    (ha : a < s.next) (hgn : g < s.next) :
    ((connectionCallsRef e s).1 = some s.next ∧ s.next ≠ a ∧
        ((connectionCallsRef e s).2).mem s.next = s.mem a ∧
        ∀ l, expOfRef e (listSetRef (connectionCallsRef e s).2 s.next l) = expOfRef e s) ∧
      ((gapCallsRef e s).1 = some s.next ∧ s.next ≠ g ∧
        ((gapCallsRef e s).2).mem s.next = s.mem g ∧
        ∀ l, expOfRef e (listSetRef (gapCallsRef e s).2 s.next l) = expOfRef e s) := by
  have hna : s.next ≠ a := fun hEq => absurd (hEq ▸ ha) (lt_irrefl _)
  have hng : s.next ≠ g := fun hEq => absurd (hEq ▸ hgn) (lt_irrefl _)
  constructor
  · refine ⟨by simp [connectionCallsRef, hc, sliceCopy], hna, ?_, ?_⟩
    · simp [connectionCallsRef, hc, sliceCopy]
    · intro l
      simp only [connectionCallsRef, hc, sliceCopy, expOfRef, listSetRef, readRef, hg]
      simp [hna.symm, hng.symm, Ne.symm hna, Ne.symm hng]
  · refine ⟨by simp [gapCallsRef, hg, sliceCopy], hng, ?_, ?_⟩
    · simp [gapCallsRef, hg, sliceCopy]
    · intro l
      simp only [gapCallsRef, hg, sliceCopy, expOfRef, listSetRef, readRef, hc]
      simp [hna.symm, hng.symm, Ne.symm hna, Ne.symm hng]

/-- A tiny heap: address 0 holds the curated connections, address 1 the
curated gaps, address 2 is the next free address. -/
def demoHeap : PyListHeap :=
  ⟨fun x => if x = 0 then [(1, 2)] else if x = 1 then [(2, 1)] else [], 2⟩

/-- The heap-based experiment pointing at `demoHeap`'s two lists. -/
def demoRef : ExperimentRef := ⟨demoCells, some 0, some 1⟩

/-- Witness for C9: on the concrete heap, the copy returned by
`connection_calls` lives at the fresh address 2, and clobbering it does not
change the experiment's denotation. -/
theorem C9_witness :
    (connectionCallsRef demoRef demoHeap).1 = some 2 ∧
      ((connectionCallsRef demoRef demoHeap).2).mem 2 = [(1, 2)] ∧
      expOfRef demoRef (listSetRef (connectionCallsRef demoRef demoHeap).2 2 [(9, 9)])
        = expOfRef demoRef demoHeap ∧
      expOfRef demoRef (listSetRef (gapCallsRef demoRef demoHeap).2 2 [(9, 9)])
        = expOfRef demoRef demoHeap := by
  have h := C9_calls_return_copies demoRef demoHeap 0 1 rfl rfl (by decide) (by decide)
  exact ⟨h.1.1, h.1.2.2.1, h.1.2.2.2 [(9, 9)], h.2.2.2.2 [(9, 9)]⟩

end Multipatch
